import Mathlib

/-!
Shallow embedding of `src/script.js` (portfolio website interactivity layer)
and proofs of the testable properties of its specification.

The script mutates a fixed set of DOM class flags and one localStorage key.
Each handler is embedded as a pure state-transition function; timer-driven
behaviour (debounce, throttle, the form-message auto-clear) is embedded as
an explicit timed event semantics.
-/

namespace Portfolio

/-! ## Theme toggle (script.js lines 194-232)

The theme subsystem touches the classes `dark-mode` / `light-mode` on the
body, `bx-moon` / `bx-sun` on the theme icon, and the localStorage entry
under key `theme`.  We track exactly those five pieces of state. -/

structure ThemeState where
  darkMode : Bool
  lightMode : Bool
  bxMoon : Bool
  bxSun : Bool
  /-- value of the localStorage entry under key `theme` (`none` = absent) -/
  store : Option String
  deriving DecidableEq, Repr

/-- `toggleTheme` (script.js 194-210): branches on whether the body
currently has the `dark-mode` class. -/
def toggleTheme (s : ThemeState) : ThemeState :=
  if s.darkMode then
    { s with darkMode := false, lightMode := true,
             bxMoon := false, bxSun := true, store := some "light" }
  else
    { s with lightMode := false, darkMode := true,
             bxSun := false, bxMoon := true, store := some "dark" }

/-- `loadTheme` (script.js 217-229): applies the light theme when the
stored value is `"light"`; otherwise (absent or any other value) only
ADDS `dark-mode` and `bx-moon`, removing nothing. -/
def loadTheme (s : ThemeState) : ThemeState :=
  if s.store = some "light" then
    { s with darkMode := false, lightMode := true,
             bxMoon := false, bxSun := true }
  else
    { s with darkMode := true, bxMoon := true }

/-- A theme state is consistent when the DOM classes and the stored
preference agree on one of the two themes. -/
def ThemeState.consistent (s : ThemeState) : Prop :=
  (s.darkMode = true ∧ s.lightMode = false ∧ s.bxMoon = true ∧
    s.bxSun = false ∧ s.store = some "dark") ∨
  (s.darkMode = false ∧ s.lightMode = true ∧ s.bxMoon = false ∧
    s.bxSun = true ∧ s.store = some "light")

/-! ## Header scroll effect (script.js 146-159) -/

structure HeaderState where
  scrolled : Bool
  deriving DecidableEq, Repr

/-- The scroll listener (script.js 148-159): adds the `scrolled` class
when `scrollTop > 100`, removes it otherwise. -/
def headerScrollStep (scrollTop : Nat) (_h : HeaderState) : HeaderState :=
  if scrollTop > 100 then { scrolled := true } else { scrolled := false }

/-! ## Contact form handling (script.js 280-336)

`String.prototype.trim` strips the JS whitespace class; the email check is
the regex `/^[^\s@]+@[^\s@]+\.[^\s@]+$/`. -/

/-- The JS whitespace class `\s` (also what `String.prototype.trim`
strips): tab, LF, VT, FF, CR, space, NBSP, plus the Unicode space
separators, line/paragraph separators, narrow NBSP, medium mathematical
space, ideographic space, and the BOM. -/
def isJsSpace (c : Char) : Bool :=
  c = ' ' || c = '\t' || c = '\n' || c = '\r' ||
  c.val = 0x0B || c.val = 0x0C || c.val = 0xA0 || c.val = 0x1680 ||
  (0x2000 ≤ c.val && c.val ≤ 0x200A) ||
  c.val = 0x2028 || c.val = 0x2029 || c.val = 0x202F || c.val = 0x205F ||
  c.val = 0x3000 || c.val = 0xFEFF

/-- `String.prototype.trim`: drop JS whitespace from both ends. -/
def jsTrim (s : String) : String :=
  String.mk (((s.data.dropWhile isJsSpace).reverse.dropWhile isJsSpace).reverse)

/-- A character admissible in every segment of the email regex: the class
`[^\s@]`. -/
def okChar (c : Char) : Bool :=
  !(isJsSpace c) && c != '@'

/-- Matcher for the `[^\s@]+\.[^\s@]+` part of the email regex: all
characters admissible and a dot in the interior (neither first nor last
position). -/
def domainMatches (d : List Char) : Bool :=
  d.all okChar && ((d.drop 1).dropLast.contains '.')

/-- Matcher for the email regex `/^[^\s@]+@[^\s@]+\.[^\s@]+$/` on a
character list: since `[^\s@]` excludes `@`, the `@` of any match is the
first `@` of the string, so we split there. -/
def emailMatches (cs : List Char) : Bool :=
  match cs.dropWhile (fun c => c != '@') with
  | [] => false
  | _ :: d =>
      let l := cs.takeWhile (fun c => c != '@')
      !l.isEmpty && l.all okChar && domainMatches d

/-- `emailRegex.test` (script.js 296-297). -/
def emailTest (s : String) : Bool :=
  emailMatches s.data

/-- Declarative reading of the email regex: the string decomposes as
`local @ domain . tld` with every segment non-empty and made of
non-space/non-`@` characters. -/
def emailShape (s : String) : Prop :=
  ∃ l d1 d2 : List Char,
    s.data = l ++ '@' :: (d1 ++ '.' :: d2) ∧
    l ≠ [] ∧ d1 ≠ [] ∧ d2 ≠ [] ∧
    (∀ c ∈ l, okChar c = true) ∧
    (∀ c ∈ d1, okChar c = true) ∧
    (∀ c ∈ d2, okChar c = true)

/-- Deferred actions scheduled by the form handlers via `setTimeout`. -/
inductive FormAction where
  | clearMessage
  | completeSubmission
  deriving DecidableEq, Repr

/-- State of the contact form: the four field values, the submit button's
disabled flag and label, and the message area's text and class. -/
structure FormState where
  fullName : String
  email : String
  subject : String
  message : String
  submitDisabled : Bool
  submitText : String
  msgText : String
  msgClass : String
  deriving DecidableEq, Repr

/-- `showFormMessage` (script.js 328-336): sets the message text and class
and schedules the 5000ms auto-clear. -/
def showFormMessage (st : FormState) (msg ty : String) :
    FormState × List (Nat × FormAction) :=
  ({ st with msgText := msg, msgClass := "form-message " ++ ty },
    [(5000, FormAction.clearMessage)])

/-- `handleFormSubmit` (script.js 280-321), immediate part: trims the four
fields, short-circuits on an empty field or a regex-rejected email, and
otherwise disables the submit button and schedules the 2000ms simulated
submission. -/
def handleFormSubmit (st : FormState) : FormState × List (Nat × FormAction) :=
  let fullName := jsTrim st.fullName
  let email := jsTrim st.email
  let subject := jsTrim st.subject
  let message := jsTrim st.message
  if fullName = "" ∨ email = "" ∨ subject = "" ∨ message = "" then
    showFormMessage st "Please fill in all fields." "error"
  else if emailTest email = false then
    showFormMessage st "Please enter a valid email address." "error"
  else
    ({ st with submitDisabled := true, submitText := "Sending..." },
      [(2000, FormAction.completeSubmission)])

/-- The 2000ms callback of `handleFormSubmit` (script.js 307-320): clears
the four fields, shows the success message, and re-enables the submit
button. -/
def submitComplete (st : FormState) : FormState × List (Nat × FormAction) :=
  let st1 := { st with fullName := "", email := "", subject := "", message := "" }
  let p := showFormMessage st1 "Message sent successfully! I'll get back to you soon." "success"
  ({ p.1 with submitDisabled := false, submitText := "Send Message" }, p.2)

/-! ## Debounce and throttle (script.js 537-564)

Both wrappers are embedded as timed event semantics: the input is the
time-ordered list of calls to the wrapped function (call time paired with
the call's argument), the output is the list of actual invocations of
`func` (invocation time paired with the argument passed). -/

/-- `debounce` (script.js 537-547).  The closure keeps at most one pending
timer (`timeout`).  A call at time `t` cancels the pending timer and
schedules `func` at `t + wait` with the call's argument; a pending timer
whose fire time has been reached before the next call fires. -/
def debounceRun (wait : Nat) : List (Nat × α) → Option (Nat × α) → List (Nat × α)
  | [], none => []
  | [], some p => [p]
  | (t, a) :: rest, none => debounceRun wait rest (some (t + wait, a))
  | (t, a) :: rest, some (ft, pa) =>
      if ft ≤ t then (ft, pa) :: debounceRun wait rest (some (t + wait, a))
      else debounceRun wait rest (some (t + wait, a))

/-- `throttle` (script.js 555-564).  The closure keeps the `inThrottle`
flag, embedded as the time at which the flag resets (`none` = not
throttled).  A call while not throttled invokes `func` immediately and
schedules the reset at `t + limit`; a call while throttled is dropped. -/
def throttleRun (limit : Nat) : List (Nat × α) → Option Nat → List (Nat × α)
  | [], _ => []
  | (t, a) :: rest, none => (t, a) :: throttleRun limit rest (some (t + limit))
  | (t, a) :: rest, some r =>
      if r ≤ t then (t, a) :: throttleRun limit rest (some (t + limit))
      else throttleRun limit rest (some r)

/-! ## Form-message timeline (script.js 328-336)

Every `showFormMessage` call schedules an unconditional reset of the
message element's class 5000ms later; no call cancels the timer of an
earlier call.  `shows` is the list of times at which `showFormMessage`
ran.  `msgDisplayedAt shows u` observes the message element after all
events with timestamp `≤ u` have run (a clear firing at the same instant
as a show is processed before the show). -/

/-- Maximum of a list of times (`none` on the empty list). -/
def maxTime : List Nat → Option Nat
  | [] => none
  | s :: rest =>
      match maxTime rest with
      | none => some s
      | some m => some (max s m)

/-- The latest `showFormMessage` call at or before time `u`. -/
def latestShowTime (shows : List Nat) (u : Nat) : Option Nat :=
  maxTime (shows.filter (fun s => decide (s ≤ u)))

/-- Whether some scheduled 5000ms clear fires strictly after time `s` and
at or before time `u`. -/
def clearFiresBetween (shows : List Nat) (s u : Nat) : Bool :=
  shows.any (fun s2 => decide (s < s2 + 5000) && decide (s2 + 5000 ≤ u))

/-- Whether a message is displayed (the message element carries a
success/error class) at time `u`. -/
def msgDisplayedAt (shows : List Nat) (u : Nat) : Bool :=
  match latestShowTime shows u with
  | none => false
  | some s => !(clearFiresBetween shows s u)

/-! ## Active-section highlighter (script.js 115-136) -/

/-- A nav link: its `data-section` attribute and whether it carries the
`active` class. -/
structure NavLink where
  dataSection : String
  active : Bool
  deriving DecidableEq, Repr

/-- An `IntersectionObserverEntry`, reduced to the fields the callback
reads: `isIntersecting` and the target section's `id`. -/
structure ObsEntry where
  isIntersecting : Bool
  targetId : String
  deriving DecidableEq, Repr

/-- The `navLinks.forEach` loop (script.js 121-123): removes `active` from
every nav link. -/
def removeActiveAll (ls : List NavLink) : List NavLink :=
  ls.map fun lk => { lk with active := false }

/-- `document.querySelector` on `.nav-link[data-section=id]` followed by
`classList.add` (script.js 126-129): marks the FIRST link whose
`data-section` matches, if any, as active. -/
def activateFirstMatch (ls : List NavLink) (id : String) : List NavLink :=
  match ls with
  | [] => []
  | lk :: rest =>
      if lk.dataSection = id then { lk with active := true } :: rest
      else lk :: activateFirstMatch rest id

/-- The body of `entries.forEach` (script.js 116-131): a non-intersecting
entry is ignored; an intersecting one clears all links and activates the
matching one. -/
def processEntry (ls : List NavLink) (e : ObsEntry) : List NavLink :=
  if e.isIntersecting then activateFirstMatch (removeActiveAll ls) e.targetId
  else ls

/-- One invocation of the `sectionObserver` callback (script.js 115-132)
on its entry list. -/
def sectionObserverCallback (ls : List NavLink) (entries : List ObsEntry) : List NavLink :=
  entries.foldl processEntry ls

/-- Number of nav links carrying the `active` class. -/
def countActive (ls : List NavLink) : Nat :=
  (ls.filter (fun lk => lk.active)).length

/-! ## Correctness of the email matcher -/

theorem split_of_mem_dropLast :
    ∀ (e : List Char), '.' ∈ e.dropLast →
      ∃ e1 e2, e = e1 ++ '.' :: e2 ∧ e2 ≠ [] := by
  intro e
  induction e with
  | nil => intro h; simp at h
  | cons b f ih =>
      intro h
      by_cases hf : f = []
      · subst hf; simp at h
      · rw [List.dropLast_cons_of_ne_nil hf] at h
        rcases List.mem_cons.mp h with hb | hmem
        · exact ⟨[], f, by simp [hb.symm], hf⟩
        · obtain ⟨f1, f2, hsplit, hne⟩ := ih hmem
          exact ⟨b :: f1, f2, by simp [hsplit], hne⟩

theorem split_of_interiorDot (d : List Char)
    (h : '.' ∈ (d.drop 1).dropLast) :
    ∃ d1 d2, d = d1 ++ '.' :: d2 ∧ d1 ≠ [] ∧ d2 ≠ [] := by
  cases d with
  | nil => simp at h
  | cons a e =>
      rw [List.drop_one, List.tail_cons] at h
      obtain ⟨e1, e2, hsplit, hne⟩ := split_of_mem_dropLast e h
      exact ⟨a :: e1, e2, by simp [hsplit], by simp, hne⟩

theorem interiorDot_of_split (d1 d2 : List Char) (h1 : d1 ≠ []) (h2 : d2 ≠ []) :
    '.' ∈ (((d1 ++ '.' :: d2).drop 1)).dropLast := by
  obtain ⟨a, d1', rfl⟩ := List.exists_cons_of_ne_nil h1
  rw [List.cons_append, List.drop_one, List.tail_cons,
    List.dropLast_append_cons, List.dropLast_cons_of_ne_nil h2]
  simp

/-- The executable matcher agrees with the declarative reading of the
regex `/^[^\s@]+@[^\s@]+\.[^\s@]+$/`. -/
theorem emailMatches_iff (cs : List Char) :
    emailMatches cs = true ↔
      ∃ l d1 d2 : List Char,
        cs = l ++ '@' :: (d1 ++ '.' :: d2) ∧
        l ≠ [] ∧ d1 ≠ [] ∧ d2 ≠ [] ∧
        (∀ c ∈ l, okChar c = true) ∧
        (∀ c ∈ d1, okChar c = true) ∧
        (∀ c ∈ d2, okChar c = true) := by
  constructor
  · intro h
    unfold emailMatches at h
    rcases hdw : cs.dropWhile (fun c => c != '@') with _ | ⟨c0, d⟩
    · rw [hdw] at h; simp at h
    · rw [hdw] at h
      simp only [Bool.and_eq_true, Bool.not_eq_true'] at h
      obtain ⟨⟨hne, halll⟩, hdom⟩ := h
      have hc0 : c0 = '@' := by
        have hw : cs.dropWhile (fun c => c != '@') ≠ [] := by simp [hdw]
        have hnot := List.head_dropWhile_not (fun c => c != '@') cs hw
        have hsome : (cs.dropWhile (fun c => c != '@')).head? = some c0 := by
          rw [hdw]; rfl
        have heq : (cs.dropWhile (fun c => c != '@')).head hw = c0 := by
          have := (List.head?_eq_head hw).symm.trans hsome
          exact Option.some_injective _ this
        rw [heq] at hnot
        simpa using hnot
      unfold domainMatches at hdom
      simp only [Bool.and_eq_true] at hdom
      obtain ⟨halld, hcont⟩ := hdom
      have hdot : '.' ∈ (d.drop 1).dropLast := List.elem_iff.mp hcont
      obtain ⟨d1, d2, hsplit, hd1, hd2⟩ := split_of_interiorDot d hdot
      refine ⟨cs.takeWhile (fun c => c != '@'), d1, d2, ?_, ?_, hd1, hd2, ?_, ?_, ?_⟩
      · conv_lhs => rw [← List.takeWhile_append_dropWhile (fun c => c != '@') cs]
        rw [hdw, hc0, hsplit]
      · simpa using hne
      · intro c hc; exact List.all_eq_true.mp halll c hc
      · intro c hc
        exact List.all_eq_true.mp halld c (hsplit ▸ List.mem_append_left _ hc)
      · intro c hc
        refine List.all_eq_true.mp halld c ?_
        rw [hsplit]
        exact List.mem_append_right _ (List.mem_cons_of_mem _ hc)
  · rintro ⟨l, d1, d2, rfl, hl, hd1, hd2, hokl, hokd1, hokd2⟩
    have hpl : ∀ c ∈ l, (fun c => c != '@') c = true := by
      intro c hc
      have := hokl c hc
      unfold okChar at this
      simp only [Bool.and_eq_true] at this
      exact this.2
    have htw : (l ++ '@' :: (d1 ++ '.' :: d2)).takeWhile (fun c => c != '@') = l := by
      rw [List.takeWhile_append_of_pos hpl, List.takeWhile_cons_of_neg (by simp)]
      simp
    have hdwn : (l ++ '@' :: (d1 ++ '.' :: d2)).dropWhile (fun c => c != '@') =
        '@' :: (d1 ++ '.' :: d2) := by
      rw [List.dropWhile_append_of_pos hpl, List.dropWhile_cons_of_neg (by simp)]
    unfold emailMatches
    rw [hdwn]
    simp only [htw, Bool.and_eq_true, Bool.not_eq_true']
    refine ⟨⟨by simpa using hl, ?_⟩, ?_⟩
    · exact List.all_eq_true.mpr hokl
    · unfold domainMatches
      simp only [Bool.and_eq_true]
      constructor
      · refine List.all_eq_true.mpr ?_
        intro c hc
        rcases List.mem_append.mp hc with hc1 | hc2
        · exact hokd1 c hc1
        · rcases List.mem_cons.mp hc2 with hdot | hc2'
          · subst hdot; decide
          · exact hokd2 c hc2'
      · exact List.elem_iff.mpr (interiorDot_of_split d1 d2 hd1 hd2)

/-- The string-level matcher agrees with `emailShape`. -/
theorem emailTest_eq_true_iff (s : String) : emailTest s = true ↔ emailShape s := by
  unfold emailTest emailShape
  exact emailMatches_iff s.data

/-! ## Theorems -/

/-- C1 (counterexample): starting from a state whose store entry is absent
while the DOM is in dark mode, toggling the theme twice does NOT return the
state (in particular the store entry) to its original value: the store ends
as `some "dark"`, not `none`. -/
theorem toggleTheme_no_roundtrip_from_inconsistent :
    toggleTheme (toggleTheme ⟨true, false, true, false, none⟩) ≠
      (⟨true, false, true, false, none⟩ : ThemeState) := by
  decide

/-- C1 (amended): from every CONSISTENT starting state (DOM classes and
store entry agreeing on dark, or agreeing on light), toggling the theme
twice returns the preference store entry and all four DOM class flags to
their original state. -/
theorem toggleTheme_toggleTheme_of_consistent (s : ThemeState)
    (h : s.consistent) : toggleTheme (toggleTheme s) = s := by
  rcases h with ⟨h1, h2, h3, h4, h5⟩ | ⟨h1, h2, h3, h4, h5⟩ <;>
    · cases s
      simp_all [toggleTheme]

/-- C1 (witness): the consistent dark state round-trips under two toggles. -/
theorem toggleTheme_toggleTheme_witness :
    toggleTheme (toggleTheme ⟨true, false, true, false, some "dark"⟩) =
      (⟨true, false, true, false, some "dark"⟩ : ThemeState) :=
  toggleTheme_toggleTheme_of_consistent _ (Or.inl ⟨rfl, rfl, rfl, rfl, rfl⟩)

/-- C7: the compacted-header state is a stateless function of the current
scroll position: after every scroll event the `scrolled` class is present
exactly when the scroll distance exceeds 100px, regardless of the previous
header state. -/
theorem headerScrollStep_stateless (scrollTop : Nat) (h : HeaderState) :
    (headerScrollStep scrollTop h).scrolled = decide (scrollTop > 100) := by
  unfold headerScrollStep
  by_cases hc : scrollTop > 100 <;> simp [hc]

/-- C8: at load time, when no value is stored under key `theme`, the
restoration adds `dark-mode` to the body and `bx-moon` to the icon; when
the stored value is `"light"`, it applies the light theme (removes the dark
classes and adds the light ones). -/
theorem loadTheme_default_dark_and_light (s t : ThemeState)
    (hs : s.store = none) (ht : t.store = some "light") :
    ((loadTheme s).darkMode = true ∧ (loadTheme s).bxMoon = true) ∧
    ((loadTheme t).darkMode = false ∧ (loadTheme t).lightMode = true ∧
      (loadTheme t).bxMoon = false ∧ (loadTheme t).bxSun = true) := by
  constructor
  · have : ¬ (s.store = some "light") := by simp [hs]
    simp [loadTheme, this]
  · simp [loadTheme, ht]

/-- C8 (witness): evaluation at a concrete absent-store state and a
concrete `"light"`-store state. -/
theorem loadTheme_default_dark_and_light_witness :
    ((loadTheme ⟨false, false, false, false, none⟩).darkMode = true ∧
      (loadTheme ⟨false, false, false, false, none⟩).bxMoon = true) ∧
    ((loadTheme ⟨true, false, true, false, some "light"⟩).darkMode = false ∧
      (loadTheme ⟨true, false, true, false, some "light"⟩).lightMode = true ∧
      (loadTheme ⟨true, false, true, false, some "light"⟩).bxMoon = false ∧
      (loadTheme ⟨true, false, true, false, some "light"⟩).bxSun = true) :=
  loadTheme_default_dark_and_light _ _ rfl rfl

/-- C2: whenever at least one of the four fields is empty after trimming,
the submit handler shows the validation-error message, schedules only the
message auto-clear (never the simulated submission), and leaves the submit
button's disabled flag unchanged. -/
theorem handleFormSubmit_empty_field (st : FormState)
    (h : jsTrim st.fullName = "" ∨ jsTrim st.email = "" ∨
         jsTrim st.subject = "" ∨ jsTrim st.message = "") :
    (handleFormSubmit st).1.msgText = "Please fill in all fields." ∧
    (handleFormSubmit st).1.msgClass = "form-message error" ∧
    (handleFormSubmit st).2 = [(5000, FormAction.clearMessage)] ∧
    (handleFormSubmit st).1.submitDisabled = st.submitDisabled := by
  unfold handleFormSubmit
  rw [if_pos h]
  unfold showFormMessage
  exact ⟨rfl, rfl, rfl, rfl⟩

/-- C2 (witness): submitting with an empty subject field. -/
theorem handleFormSubmit_empty_field_witness :
    (handleFormSubmit ⟨"John Doe", "john@doe.com", "", "Hello", false,
        "Send Message", "", "form-message"⟩).1.msgText =
      "Please fill in all fields." ∧
    (handleFormSubmit ⟨"John Doe", "john@doe.com", "", "Hello", false,
        "Send Message", "", "form-message"⟩).1.msgClass = "form-message error" ∧
    (handleFormSubmit ⟨"John Doe", "john@doe.com", "", "Hello", false,
        "Send Message", "", "form-message"⟩).2 =
      [(5000, FormAction.clearMessage)] ∧
    (handleFormSubmit ⟨"John Doe", "john@doe.com", "", "Hello", false,
        "Send Message", "", "form-message"⟩).1.submitDisabled = false :=
  handleFormSubmit_empty_field _ (Or.inr (Or.inr (Or.inl rfl)))

/-- C3: when all four fields are non-empty after trimming but the trimmed
email does not decompose as `local@domain.tld` (each segment non-empty and
free of whitespace and `@`), the handler shows the email-format error and
schedules only the message auto-clear, never the simulated submission. -/
theorem handleFormSubmit_bad_email (st : FormState)
    (h1 : jsTrim st.fullName ≠ "") (h2 : jsTrim st.email ≠ "")
    (h3 : jsTrim st.subject ≠ "") (h4 : jsTrim st.message ≠ "")
    (h5 : ¬ emailShape (jsTrim st.email)) :
    (handleFormSubmit st).1.msgText = "Please enter a valid email address." ∧
    (handleFormSubmit st).1.msgClass = "form-message error" ∧
    (handleFormSubmit st).2 = [(5000, FormAction.clearMessage)] ∧
    (handleFormSubmit st).1.submitDisabled = st.submitDisabled := by
  have hfalse : emailTest (jsTrim st.email) = false := by
    rcases hb : emailTest (jsTrim st.email) with _ | _
    · rfl
    · exact absurd ((emailTest_eq_true_iff _).mp hb) h5
  unfold handleFormSubmit
  rw [if_neg (by push_neg; exact ⟨h1, h2, h3, h4⟩), if_pos hfalse]
  unfold showFormMessage
  exact ⟨rfl, rfl, rfl, rfl⟩

/-- C3 (witness): submitting with the malformed email `"jayce.dev"`. -/
theorem handleFormSubmit_bad_email_witness :
    (handleFormSubmit ⟨"John Doe", "jayce.dev", "Hi", "Hello", false,
        "Send Message", "", "form-message"⟩).1.msgText =
      "Please enter a valid email address." ∧
    (handleFormSubmit ⟨"John Doe", "jayce.dev", "Hi", "Hello", false,
        "Send Message", "", "form-message"⟩).1.msgClass = "form-message error" ∧
    (handleFormSubmit ⟨"John Doe", "jayce.dev", "Hi", "Hello", false,
        "Send Message", "", "form-message"⟩).2 =
      [(5000, FormAction.clearMessage)] ∧
    (handleFormSubmit ⟨"John Doe", "jayce.dev", "Hi", "Hello", false,
        "Send Message", "", "form-message"⟩).1.submitDisabled = false :=
  handleFormSubmit_bad_email _ (by decide) (by decide) (by decide) (by decide)
    (fun hs => absurd ((emailTest_eq_true_iff _).mpr hs) (by decide))

/-- C4: when all four trimmed fields are non-empty and the trimmed email
matches the regex, the handler immediately disables the submit button and
schedules exactly the 2000ms simulated submission; the 2000ms callback then
clears all four fields, shows the success message, and re-enables the
submit button. -/
theorem handleFormSubmit_valid (st : FormState)
    (h1 : jsTrim st.fullName ≠ "") (h2 : jsTrim st.email ≠ "")
    (h3 : jsTrim st.subject ≠ "") (h4 : jsTrim st.message ≠ "")
    (h5 : emailShape (jsTrim st.email)) :
    handleFormSubmit st =
      ({ st with submitDisabled := true, submitText := "Sending..." },
        [(2000, FormAction.completeSubmission)]) ∧
    submitComplete (handleFormSubmit st).1 =
      ({ st with fullName := "", email := "", subject := "", message := "",
                 submitDisabled := false, submitText := "Send Message",
                 msgText := "Message sent successfully! I'll get back to you soon.",
                 msgClass := "form-message success" },
        [(5000, FormAction.clearMessage)]) := by
  have htrue : emailTest (jsTrim st.email) = true := (emailTest_eq_true_iff _).mpr h5
  have hmain : handleFormSubmit st =
      ({ st with submitDisabled := true, submitText := "Sending..." },
        [(2000, FormAction.completeSubmission)]) := by
    unfold handleFormSubmit
    rw [if_neg (by push_neg; exact ⟨h1, h2, h3, h4⟩), if_neg (by simp [htrue])]
  refine ⟨hmain, ?_⟩
  rw [hmain]
  unfold submitComplete showFormMessage
  rfl

/-- C4 (witness): a fully valid submission. -/
theorem handleFormSubmit_valid_witness :
    handleFormSubmit ⟨"John Doe", "john@doe.com", "Hi", "Hello", false,
        "Send Message", "", "form-message"⟩ =
      (⟨"John Doe", "john@doe.com", "Hi", "Hello", true,
        "Sending...", "", "form-message"⟩,
        [(2000, FormAction.completeSubmission)]) ∧
    submitComplete (handleFormSubmit ⟨"John Doe", "john@doe.com", "Hi", "Hello",
        false, "Send Message", "", "form-message"⟩).1 =
      (⟨"", "", "", "", false, "Send Message",
        "Message sent successfully! I'll get back to you soon.",
        "form-message success"⟩,
        [(5000, FormAction.clearMessage)]) :=
  handleFormSubmit_valid _ (by decide) (by decide) (by decide) (by decide)
    ((emailTest_eq_true_iff _).mp (by decide))

theorem debounceRun_pending (wait : Nat) :
    ∀ (rest : List (Nat × α)) (t : Nat) (a : α),
      List.Chain' (fun p q => p.1 ≤ q.1 ∧ q.1 < p.1 + wait) ((t, a) :: rest) →
      debounceRun wait rest (some (t + wait, a)) =
        [((((t, a) :: rest).getLast (List.cons_ne_nil _ _)).1 + wait,
          (((t, a) :: rest).getLast (List.cons_ne_nil _ _)).2)] := by
  intro rest
  induction rest with
  | nil => intro t a _; simp [debounceRun]
  | cons p rest' ih =>
      intro t a hchain
      obtain ⟨t', a'⟩ := p
      rw [List.chain'_cons] at hchain
      obtain ⟨⟨hle, hlt⟩, hchain'⟩ := hchain
      have hnof : ¬ (t + wait ≤ t') := by omega
      rw [show debounceRun wait ((t', a') :: rest') (some (t + wait, a)) =
            if t + wait ≤ t' then
              (t + wait, a) :: debounceRun wait rest' (some (t' + wait, a'))
            else debounceRun wait rest' (some (t' + wait, a')) from rfl,
        if_neg hnof, ih t' a' hchain',
        List.getLast_cons (List.cons_ne_nil _ _)]

/-- C5: for every wait time and every non-empty time-ordered sequence of
calls to the debounced function in which each consecutive pair of calls is
separated by strictly less than the wait time, the wrapped function is
invoked exactly once, at the time of the last call plus the wait time,
with the argument of the last call. -/
theorem debounce_coalesces (wait t : Nat) (a : α) (rest : List (Nat × α))
    (hchain : List.Chain' (fun p q => p.1 ≤ q.1 ∧ q.1 < p.1 + wait) ((t, a) :: rest)) :
    debounceRun wait ((t, a) :: rest) none =
      [((((t, a) :: rest).getLast (List.cons_ne_nil _ _)).1 + wait,
        (((t, a) :: rest).getLast (List.cons_ne_nil _ _)).2)] := by
  rw [show debounceRun wait ((t, a) :: rest) none =
        debounceRun wait rest (some (t + wait, a)) from rfl]
  exact debounceRun_pending wait rest t a hchain

/-- C5 (witness): three calls at 0, 100, 200 with wait 250 produce exactly
one invocation, at time 450, with the last argument. -/
theorem debounce_coalesces_witness :
    debounceRun 250 [(0, 1), (100, 2), (200, 3)] none = [(450, 3)] :=
  (debounce_coalesces 250 0 1 [(100, 2), (200, 3)]
    (List.chain'_cons.mpr ⟨⟨by decide, by decide⟩,
      List.chain'_cons.mpr ⟨⟨by decide, by decide⟩, List.chain'_singleton _⟩⟩)).trans rfl

theorem throttleRun_dropped (limit : Nat) :
    ∀ (rest : List (Nat × α)) (r : Nat), (∀ p ∈ rest, p.1 < r) →
      throttleRun limit rest (some r) = [] := by
  intro rest
  induction rest with
  | nil => intro r _; rfl
  | cons p rest' ih =>
      intro r h
      obtain ⟨t, a⟩ := p
      have hlt : t < r := h (t, a) (List.mem_cons_self _ _)
      rw [show throttleRun limit ((t, a) :: rest') (some r) =
            if r ≤ t then (t, a) :: throttleRun limit rest' (some (t + limit))
            else throttleRun limit rest' (some r) from rfl,
        if_neg (by omega)]
      exact ih r (fun q hq => h q (List.mem_cons_of_mem _ hq))

/-- C6: for every limit and every non-empty sequence of calls to the
throttled function whose later calls all occur strictly before the first
call's time plus the limit, the wrapped function is invoked exactly once,
immediately at the time of the first call, with the first call's
argument. -/
theorem throttle_single_invocation (limit t0 : Nat) (a0 : α) (rest : List (Nat × α))
    (h : ∀ p ∈ rest, p.1 < t0 + limit) :
    throttleRun limit ((t0, a0) :: rest) none = [(t0, a0)] := by
  rw [show throttleRun limit ((t0, a0) :: rest) none =
        (t0, a0) :: throttleRun limit rest (some (t0 + limit)) from rfl,
    throttleRun_dropped limit rest (t0 + limit) h]

/-- C6 (witness): three calls at 0, 50, 299 with limit 300 produce exactly
one invocation, immediately at time 0, with the first argument. -/
theorem throttle_single_invocation_witness :
    throttleRun 300 [(0, 1), (50, 2), (299, 3)] none = [(0, 1)] :=
  throttle_single_invocation 300 0 1 [(50, 2), (299, 3)] (by decide)

theorem maxTime_eq_none_iff (l : List Nat) : maxTime l = none ↔ l = [] := by
  cases l with
  | nil => simp [maxTime]
  | cons s rest => cases h : maxTime rest <;> simp [maxTime, h]

theorem maxTime_mem : ∀ (l : List Nat) (m : Nat), maxTime l = some m → m ∈ l := by
  intro l
  induction l with
  | nil => intro m h; simp [maxTime] at h
  | cons s rest ih =>
      intro m h
      unfold maxTime at h
      rcases hr : maxTime rest with _ | m'
      · rw [hr] at h
        simp at h
        simp [h]
      · rw [hr] at h
        simp at h
        rcases max_choice s m' with hm | hm
        · rw [hm] at h; simp [h]
        · rw [hm] at h
          exact List.mem_cons_of_mem _ (h ▸ ih m' hr)

theorem maxTime_le : ∀ (l : List Nat) (m : Nat), maxTime l = some m →
    ∀ x ∈ l, x ≤ m := by
  intro l
  induction l with
  | nil => intro m _ x hx; simp at hx
  | cons s rest ih =>
      intro m h x hx
      unfold maxTime at h
      rcases hr : maxTime rest with _ | m'
      · rw [hr] at h
        simp at h
        have : rest = [] := (maxTime_eq_none_iff rest).mp hr
        subst this
        simp at hx
        omega
      · rw [hr] at h
        simp at h
        rcases List.mem_cons.mp hx with rfl | hmem
        · omega
        · have := ih m' hr x hmem
          omega

theorem maxTime_eq_some (l : List Nat) (t : Nat) (hmem : t ∈ l)
    (hub : ∀ x ∈ l, x ≤ t) : maxTime l = some t := by
  rcases hm : maxTime l with _ | m
  · rw [maxTime_eq_none_iff] at hm
    subst hm
    simp at hmem
  · have h1 : m ≤ t := hub m (maxTime_mem l m hm)
    have h2 : t ≤ m := maxTime_le l m hm t hmem
    exact congrArg some (Nat.le_antisymm h1 h2)

theorem latestShowTime_eq (shows : List Nat) (t u : Nat) (hmem : t ∈ shows)
    (htu : t ≤ u) (hub : ∀ s ∈ shows, s ≤ u → s ≤ t) :
    latestShowTime shows u = some t := by
  apply maxTime_eq_some
  · exact List.mem_filter.mpr ⟨hmem, by simpa using htu⟩
  · intro x hx
    have := List.mem_filter.mp hx
    exact hub x this.1 (by simpa using this.2)

/-- C9 (counterexample): with messages shown at times 0 and 3000, the
5000ms clear timer of the first show fires at time 5000 and hides the
second message after it was visible for only 2000ms, earlier than the
fixed 5000ms duration the claim promises (it should have stayed until
time 8000). -/
theorem showFormMessage_cleared_early :
    msgDisplayedAt [0, 3000] 4999 = true ∧ msgDisplayedAt [0, 3000] 5000 = false := by
  decide

/-- C9 (amended): when a message is shown at time `t` and no other message
is shown in the 5000ms before or after `t` (every other show either ended
at least 5000ms earlier or starts more than 5000ms later), the message
remains displayed at every instant of `[t, t + 5000)` and is cleared at
`t + 5000`. -/
theorem msgDisplayed_full_duration (shows : List Nat) (t u : Nat)
    (ht : t ∈ shows)
    (hiso : ∀ s ∈ shows, s = t ∨ s + 5000 ≤ t ∨ t + 5000 < s)
    (hu1 : t ≤ u) (hu2 : u < t + 5000) :
    msgDisplayedAt shows u = true ∧ msgDisplayedAt shows (t + 5000) = false := by
  constructor
  · have hl : latestShowTime shows u = some t := by
      refine latestShowTime_eq shows t u ht hu1 ?_
      intro s hs hsu
      rcases hiso s hs with h | h | h <;> omega
    have hred : msgDisplayedAt shows u = !(clearFiresBetween shows t u) := by
      unfold msgDisplayedAt
      rw [hl]
    have hcf : clearFiresBetween shows t u = false := by
      unfold clearFiresBetween
      rw [List.any_eq_false]
      intro s2 hs2
      rcases hiso s2 hs2 with h | h | h <;> simp <;> omega
    rw [hred, hcf]
    rfl
  · have hl : latestShowTime shows (t + 5000) = some t := by
      refine latestShowTime_eq shows t (t + 5000) ht (by omega) ?_
      intro s hs hsu
      rcases hiso s hs with h | h | h <;> omega
    have hred : msgDisplayedAt shows (t + 5000) =
        !(clearFiresBetween shows t (t + 5000)) := by
      unfold msgDisplayedAt
      rw [hl]
    have hcf : clearFiresBetween shows t (t + 5000) = true := by
      unfold clearFiresBetween
      rw [List.any_eq_true]
      exact ⟨t, ht, by simp⟩
    rw [hred, hcf]
    rfl

/-- C9 (witness): a single message shown at time 3000 is displayed at time
7999 and cleared at time 8000. -/
theorem msgDisplayed_full_duration_witness :
    msgDisplayedAt [3000] 7999 = true ∧ msgDisplayedAt [3000] 8000 = false :=
  msgDisplayed_full_duration [3000] 3000 7999 (by decide) (by decide)
    (by decide) (by decide)

theorem countActive_cons (lk : NavLink) (rest : List NavLink) :
    countActive (lk :: rest) = (if lk.active then 1 else 0) + countActive rest := by
  unfold countActive
  rw [List.filter_cons]
  by_cases h : lk.active <;> simp [h, Nat.add_comm]

theorem countActive_removeActiveAll (ls : List NavLink) :
    countActive (removeActiveAll ls) = 0 := by
  induction ls with
  | nil => rfl
  | cons lk rest ih =>
      unfold removeActiveAll at ih ⊢
      rw [List.map_cons, countActive_cons]
      simp [ih]

theorem countActive_activateFirstMatch (ls : List NavLink) (id : String) :
    countActive (activateFirstMatch ls id) ≤ countActive ls + 1 := by
  induction ls with
  | nil => simp [activateFirstMatch, countActive]
  | cons lk rest ih =>
      unfold activateFirstMatch
      by_cases h : lk.dataSection = id
      · rw [if_pos h, countActive_cons, countActive_cons]
        by_cases ha : lk.active <;> · simp [ha]; try omega
      · rw [if_neg h, countActive_cons, countActive_cons]
        omega

theorem processEntry_le_one (ls : List NavLink) (e : ObsEntry)
    (h : e.isIntersecting = true) : countActive (processEntry ls e) ≤ 1 := by
  unfold processEntry
  rw [if_pos h]
  have h1 := countActive_activateFirstMatch (removeActiveAll ls) e.targetId
  rw [countActive_removeActiveAll] at h1
  omega

theorem processEntry_preserve (ls : List NavLink) (e : ObsEntry)
    (h : countActive ls ≤ 1) : countActive (processEntry ls e) ≤ 1 := by
  by_cases hi : e.isIntersecting = true
  · exact processEntry_le_one ls e hi
  · unfold processEntry
    rw [if_neg hi]
    exact h

theorem foldl_processEntry_preserve :
    ∀ (entries : List ObsEntry) (ls : List NavLink), countActive ls ≤ 1 →
      countActive (List.foldl processEntry ls entries) ≤ 1 := by
  intro entries
  induction entries with
  | nil => intro ls h; exact h
  | cons e rest ih =>
      intro ls h
      rw [List.foldl_cons]
      exact ih _ (processEntry_preserve ls e h)

theorem foldl_processEntry_intersecting :
    ∀ (entries : List ObsEntry) (ls : List NavLink) (e : ObsEntry),
      e ∈ entries → e.isIntersecting = true →
      countActive (List.foldl processEntry ls entries) ≤ 1 := by
  intro entries
  induction entries with
  | nil => intro ls e he _; exact absurd he (List.not_mem_nil e)
  | cons e0 rest ih =>
      intro ls e he hint
      rw [List.foldl_cons]
      rcases List.mem_cons.mp he with rfl | hmem
      · exact foldl_processEntry_preserve rest _ (processEntry_le_one ls e hint)
      · exact ih _ e hmem hint

/-- C10 (counterexample): an invocation of the section-observer callback
whose entries are all non-intersecting leaves the nav links untouched, so
from a starting state with two active links, two links still carry
`active` after the invocation — the at-most-one-active conclusion does not
hold from EVERY starting state. -/
theorem sectionObserver_two_active_after_invocation :
    countActive (sectionObserverCallback
      [⟨"home", true⟩, ⟨"about", true⟩] [⟨false, "home"⟩]) = 2 := by
  rfl

/-- C10 (amended): after an invocation of the section-observer callback,
at most one nav link carries `active`, provided the starting state already
satisfied the at-most-one-active invariant (which the callback preserves)
or at least one entry of the invocation is intersecting (which resets all
links before activating at most one). -/
theorem sectionObserver_at_most_one_active (ls : List NavLink)
    (entries : List ObsEntry)
    (h : countActive ls ≤ 1 ∨ ∃ e ∈ entries, e.isIntersecting = true) :
    countActive (sectionObserverCallback ls entries) ≤ 1 := by
  unfold sectionObserverCallback
  rcases h with h | ⟨e, he, hint⟩
  · exact foldl_processEntry_preserve entries ls h
  · exact foldl_processEntry_intersecting entries ls e he hint

/-- C10 (witness): an intersecting entry repairs a state with two active
links. -/
theorem sectionObserver_at_most_one_active_witness :
    countActive (sectionObserverCallback
      [⟨"home", true⟩, ⟨"about", true⟩] [⟨true, "about"⟩]) ≤ 1 :=
  sectionObserver_at_most_one_active _ _
    (Or.inr ⟨⟨true, "about"⟩, List.mem_cons_self _ _, rfl⟩)

end Portfolio
